import Mathlib

/-!
Shallow embedding of the S3 compression pipeline
(`src/lambda_function.py` and `src/s3_compression.py`).

External collaborators (the S3 client) are modelled as oracles:
* a listing is a `List S3Obj` (the flattened pages of `list_objects_v2`);
* `fetch : String → Option (List Nat)` models `get_object` (`none` = the
  call raised, `some bytes` = the object body);
* `uploadOk : Bool` models whether `put_object` for the archive succeeds;
* `deleteOk : String → Bool` models whether `delete_object` on a key succeeds;
* `zipSize : List ZipEntry → Nat` models `len(zip_buffer.getvalue())`
  (the deflate container size is a deterministic function of the entries).

Timestamps are `Nat` (Python `datetime` comparisons form a total order).
-/

/-- One entry of an S3 listing, as consumed by `get_files_to_compress`
(fields `Key`, `Size`, `LastModified`, `ETag`). -/
structure S3Obj where
  key : String
  size : Nat
  lastModified : Nat
  etag : String
  deriving DecidableEq, Repr

/-- Python `s.endswith(suf)`: `suf` is a suffix of `s` (checked on the
reversed character lists). -/
def strEndsWith (s suf : String) : Bool :=
  suf.toList.reverse.isPrefixOf s.toList.reverse

/-- Python `s.lower()` (per-character lowercasing). -/
def lowerStr (s : String) : String :=
  String.mk (s.toList.map Char.toLower)

/-- `obj['Key'].lower().endswith('.zip')` (line 143 / 116). -/
def is_zip_file (k : String) : Bool :=
  strEndsWith (lowerStr k) ".zip"

/-- `obj['Key'].endswith('/')` (line 144 / 117). -/
def is_directory (k : String) : Bool :=
  strEndsWith k "/"

/-- The per-object part of the skip condition of the scanner
(lines 148-151 / 121-124): too new, a zip, a directory marker, or empty. -/
def skipsObj (cutoff : Nat) (o : S3Obj) : Bool :=
  decide (cutoff ≤ o.lastModified) || is_zip_file o.key || is_directory o.key
    || (o.size == 0)

/-- Ordering of candidates by modification time, the sort key of
`files.sort(key=lambda x: x['last_modified'])` (line 173 / 146). -/
def lmLE (a b : S3Obj) : Prop :=
  a.lastModified ≤ b.lastModified

instance : DecidableRel lmLE := fun a b => Nat.decLe a.lastModified b.lastModified

instance : IsTotal S3Obj lmLE := ⟨fun a b => Nat.le_total a.lastModified b.lastModified⟩

instance : IsTrans S3Obj lmLE := ⟨fun _ _ _ h h2 => Nat.le_trans h h2⟩

namespace lambda_function

/-- The accumulation loop of `get_files_to_compress` (lines 136-168):
walk the listing, skip objects failing the criteria or once the
accumulated list has reached `max_files`, and break out as soon as the
maximum is reached right after an append. -/
def scanFiles (cutoff max_files : Nat) : List S3Obj → List S3Obj → List S3Obj
  | [], files => files
  | obj :: rest, files =>
    if skipsObj cutoff obj || decide (max_files ≤ files.length) then
      scanFiles cutoff max_files rest files
    else
      let files2 := files ++ [obj]
      if max_files ≤ files2.length then files2
      else scanFiles cutoff max_files rest files2

/-- `get_files_to_compress` (lines 117-179): accumulate candidates, then
sort ascending by `last_modified` (Python's sort is stable; insertion
sort with `≤` is the same stable sort). -/
def get_files_to_compress (listing : List S3Obj) (cutoff : Nat)
    (max_files : Nat) : List S3Obj :=
  List.insertionSort lmLE (scanFiles cutoff max_files listing [])

end lambda_function

/-- `os.path.basename(key)`: the suffix after the last `/`. -/
def basenameOf (k : String) : String :=
  String.mk ((k.toList.reverse.takeWhile (fun c => c ≠ '/')).reverse)

/-- Python `s.strip('_')` on a list of characters. -/
def stripUnderscores (cs : List Char) : List Char :=
  ((cs.dropWhile (fun c => c = '_')).reverse.dropWhile (fun c => c = '_')).reverse

/-- `key.replace('/', '_').strip('_')` (line 200 / 175), the fallback
entry name when the basename is empty. -/
def fallbackName (k : String) : String :=
  String.mk (stripUnderscores (k.toList.map (fun c => if c = '/' then '_' else c)))

/-- Lines 198-200 / 173-175: entry base name is the key's basename, or
the fallback when that is empty. -/
def zipBaseName (k : String) : String :=
  let b := basenameOf k
  if b = "" then fallbackName k else b

/-- Index at which `os.path.splitext` splits: position of the last `.`
that has some non-dot character before it, if any. -/
def splitextIdx (cs : List Char) : Option Nat :=
  match (cs.reverse.findIdx? (fun c => c = '.')) with
  | none => none
  | some i =>
    let j := cs.length - 1 - i
    if (cs.take j).any (fun c => c ≠ '.') then some j else none

/-- `os.path.splitext` for a bare file name (no `/` handling needed:
the input is already a basename). -/
def splitext (s : String) : String × String :=
  match splitextIdx s.toList with
  | some j => (String.mk (s.toList.take j), String.mk (s.toList.drop j))
  | none => (s, "")

/-- One entry written into the zip container by `writestr`, together
with the source key it came from. -/
structure ZipEntry where
  name : String
  content : List Nat
  sourceKey : String
  deriving DecidableEq, Repr

/-- Result of building the archive: the entries written (in order) and
the keys whose fetch raised (logged in the per-entry `except` branch). -/
structure ZipResult where
  entries : List ZipEntry
  failed : List String
  deriving DecidableEq, Repr

namespace lambda_function

/-- The per-candidate loop of `create_zip_archive` (lines 191-210): fetch;
on failure log the key and continue; on success write the entry under
`zipBaseName` (no uniqueness check in this file). -/
def create_zip_go (fetch : String → Option (List Nat)) :
    List S3Obj → List ZipEntry → List String → ZipResult
  | [], entries, failedKeys => ⟨entries, failedKeys⟩
  | f :: rest, entries, failedKeys =>
    match fetch f.key with
    | none => create_zip_go fetch rest entries (failedKeys ++ [f.key])
    | some content =>
      create_zip_go fetch rest (entries ++ [⟨zipBaseName f.key, content, f.key⟩])
        failedKeys

/-- `create_zip_archive` (lines 181-219). -/
def create_zip_archive (fetch : String → Option (List Nat))
    (files : List S3Obj) : ZipResult :=
  create_zip_go fetch files [] []

/-- `delete_original_files` (lines 242-260): delete sequentially; the
first failing `delete_object` raises, aborting the loop. Returns the
keys on which delete was invoked and whether the loop completed. -/
def delete_original_files (deleteOk : String → Bool) :
    List S3Obj → List String × Bool
  | [] => ([], true)
  | f :: rest =>
    if deleteOk f.key then
      let r := delete_original_files deleteOk rest
      (f.key :: r.1, r.2)
    else ([f.key], false)

/-- Sum of the `size` fields, `sum(f['size'] for f in files_to_compress)`
(line 88). -/
def original_size (files : List S3Obj) : Nat :=
  (files.map (fun f => f.size)).sum

/-- `(1 - zip_size / original_size) * 100 if original_size > 0 else 0`
(line 89), over the rationals (Python floats on these inputs compute the
same field-arithmetic expression). -/
def compression_ratio (orig zip_size : Nat) : ℚ :=
  if 0 < orig then (1 - (zip_size : ℚ) / (orig : ℚ)) * 100 else 0

/-- Observable outcome of one `lambda_handler` invocation: the early
status-200 "no files" return, the status-500 `except` path (recording
which keys received a `delete_object` call before the failure), or the
status-200 success body with its statistics. -/
inductive LambdaOutcome where
  | noFiles : LambdaOutcome
  | failed (deleteCalls : List String) : LambdaOutcome
  | completed (deleteCalls : List String) (files_compressed orig zip_size : Nat)
      (ratio : ℚ) : LambdaOutcome
  deriving DecidableEq, Repr

/-- `lambda_handler` (lines 15-115) from the point where configuration is
resolved: scan, build, upload, optionally delete, compute statistics.
An upload failure or a delete failure raises into the outer `except`
(status 500). -/
def lambda_handler (listing : List S3Obj) (fetch : String → Option (List Nat))
    (uploadOk : Bool) (deleteOk : String → Bool)
    (zipSize : List ZipEntry → Nat) (cutoff max_files : Nat)
    (delete_original : Bool) : LambdaOutcome :=
  let files := get_files_to_compress listing cutoff max_files
  if files.isEmpty then LambdaOutcome.noFiles
  else
    let zipRes := create_zip_archive fetch files
    let zip_size := zipSize zipRes.entries
    if uploadOk = false then LambdaOutcome.failed []
    else if delete_original then
      let r := delete_original_files deleteOk files
      if r.2 = false then LambdaOutcome.failed r.1
      else LambdaOutcome.completed r.1 files.length (original_size files) zip_size
        (compression_ratio (original_size files) zip_size)
    else LambdaOutcome.completed [] files.length (original_size files) zip_size
      (compression_ratio (original_size files) zip_size)

end lambda_function

namespace s3_compression

/-- The per-candidate loop of `create_zip_archive` (lines 165-191): like
the lambda variant but with the uniqueness check of lines 177-180 —
a name already present among the current entries is rewritten to
`{stem}_{successful_files}{ext}` where `successful_files` is the number
of entries written so far. -/
def create_zip_go (fetch : String → Option (List Nat)) :
    List S3Obj → List ZipEntry → List String → ZipResult
  | [], entries, failedKeys => ⟨entries, failedKeys⟩
  | f :: rest, entries, failedKeys =>
    match fetch f.key with
    | none => create_zip_go fetch rest entries (failedKeys ++ [f.key])
    | some content =>
      let zf := zipBaseName f.key
      let zf2 := if zf ∈ entries.map (fun e => e.name) then
          (splitext zf).1 ++ "_" ++ toString entries.length ++ (splitext zf).2
        else zf
      create_zip_go fetch rest (entries ++ [⟨zf2, content, f.key⟩]) failedKeys

/-- `create_zip_archive` (lines 154-203). -/
def create_zip_archive (fetch : String → Option (List Nat))
    (files : List S3Obj) : ZipResult :=
  create_zip_go fetch files [] []

/-- `delete_original_files` (lines 235-253), identical in behaviour to
the lambda variant. -/
def delete_original_files (deleteOk : String → Bool) :
    List S3Obj → List String × Bool
  | [] => ([], true)
  | f :: rest =>
    if deleteOk f.key then
      let r := delete_original_files deleteOk rest
      (f.key :: r.1, r.2)
    else ([f.key], false)

end s3_compression

/-! ### Helper lemmas -/

namespace lambda_function

/-- The accumulation loop selects exactly the first `max_files - files.length`
listing entries passing the filter, appended to the accumulator. -/
theorem scanFiles_eq (cutoff max_files : Nat) (l : List S3Obj) :
    ∀ files : List S3Obj, files.length ≤ max_files →
      scanFiles cutoff max_files l files
        = files ++ (l.filter (fun o => !skipsObj cutoff o)).take
            (max_files - files.length) := by
  induction l with
  | nil => intro files _; simp [scanFiles]
  | cons obj rest ih =>
    intro files h
    rw [scanFiles]
    cases hs : skipsObj cutoff obj with
    | true =>
      simp only [hs, Bool.true_or, if_true]
      rw [ih files h]
      simp [List.filter_cons, hs]
    | false =>
      simp only [hs, Bool.false_or]
      by_cases hlen : max_files ≤ files.length
      · have hfe : files.length = max_files := Nat.le_antisymm h hlen
        rw [if_pos (decide_eq_true hlen)]
        rw [ih files h]
        simp [hfe, Nat.sub_self]
      · rw [if_neg (by simpa using hlen)]
        by_cases h2 : max_files ≤ (files ++ [obj]).length
        · simp only [h2, if_true]
          have h3 : max_files - files.length = 1 := by
            simp only [List.length_append, List.length_singleton] at h2
            omega
          simp [List.filter_cons, hs, h3]
        · simp only [h2, if_false]
          have h4 : (files ++ [obj]).length ≤ max_files := Nat.le_of_not_le h2
          rw [ih (files ++ [obj]) h4]
          have h5 : max_files - files.length
              = (max_files - (files ++ [obj]).length) + 1 := by
            simp only [List.length_append, List.length_singleton] at h2 ⊢
            omega
          simp [List.filter_cons, hs, h5, List.take_succ_cons]

/-- `get_files_to_compress` is the stable sort (by `lastModified`) of the
first `max_files` eligible objects of the listing. -/
theorem get_files_to_compress_eq (listing : List S3Obj) (cutoff max_files : Nat) :
    get_files_to_compress listing cutoff max_files
      = List.insertionSort lmLE
          ((listing.filter (fun o => !skipsObj cutoff o)).take max_files) := by
  rw [get_files_to_compress, scanFiles_eq cutoff max_files listing [] (by simp)]
  simp

/-- Everything the scanner returns comes from the listing and passes the
filter criteria. -/
theorem mem_get_files_to_compress {listing : List S3Obj} {cutoff max_files : Nat}
    {f : S3Obj} (h : f ∈ get_files_to_compress listing cutoff max_files) :
    f ∈ listing ∧ skipsObj cutoff f = false := by
  rw [get_files_to_compress_eq, List.mem_insertionSort] at h
  have h2 := List.mem_of_mem_take h
  rw [List.mem_filter] at h2
  exact ⟨h2.1, by simpa using h2.2⟩

end lambda_function

/-- Filtering `orderedInsert` by an exact timestamp: the inserted element
lands in front of the equally-stamped ones (everything `orderedInsert`
passes over is strictly smaller). -/
theorem filter_orderedInsert (t : Nat) (x : S3Obj) (l : List S3Obj) :
    (List.orderedInsert lmLE x l).filter (fun o => o.lastModified == t)
      = if x.lastModified == t
          then x :: l.filter (fun o => o.lastModified == t)
          else l.filter (fun o => o.lastModified == t) := by
  induction l with
  | nil =>
    by_cases hx : x.lastModified = t <;>
      simp [List.orderedInsert, List.filter_cons, hx]
  | cons y l ih =>
    rw [List.orderedInsert]
    by_cases hxy : lmLE x y
    · rw [if_pos hxy]
      by_cases hx : x.lastModified = t <;>
        simp [List.filter_cons, hx]
    · rw [if_neg hxy]
      have hyx : y.lastModified < x.lastModified := by
        simpa [lmLE] using Nat.lt_of_not_le (by simpa [lmLE] using hxy)
      by_cases hx : x.lastModified = t
      · have hy : ¬(y.lastModified = t) := by omega
        simp [List.filter_cons, hx, hy, ih]
      · by_cases hy : y.lastModified = t <;>
          simp [List.filter_cons, hx, hy, ih]

/-- Stability of the sort: the elements carrying any fixed timestamp
appear in the sorted list exactly in their original relative order. -/
theorem filter_insertionSort (t : Nat) (l : List S3Obj) :
    (List.insertionSort lmLE l).filter (fun o => o.lastModified == t)
      = l.filter (fun o => o.lastModified == t) := by
  induction l with
  | nil => rfl
  | cons x l ih =>
    rw [List.insertionSort, filter_orderedInsert, ih]
    by_cases hx : x.lastModified = t <;> simp [List.filter_cons, hx]

namespace lambda_function

/-- The source keys of the written entries are exactly the fetchable
candidates, in order. -/
theorem create_zip_go_sourceKeys (fetch : String → Option (List Nat))
    (l : List S3Obj) : ∀ (es : List ZipEntry) (fs : List String),
    ((create_zip_go fetch l es fs).entries).map (fun e => e.sourceKey)
      = es.map (fun e => e.sourceKey)
        ++ (l.filter (fun f => (fetch f.key).isSome)).map (fun f => f.key) := by
  induction l with
  | nil => intro es fs; simp [create_zip_go]
  | cons f rest ih =>
    intro es fs
    rw [create_zip_go]
    cases hf : fetch f.key with
    | none => rw [ih]; simp [List.filter_cons, hf]
    | some c => rw [ih]; simp [List.filter_cons, hf]

/-- The keys logged as failed are exactly the unfetchable candidates,
in order. -/
theorem create_zip_go_failed (fetch : String → Option (List Nat))
    (l : List S3Obj) : ∀ (es : List ZipEntry) (fs : List String),
    (create_zip_go fetch l es fs).failed
      = fs ++ (l.filter (fun f => (fetch f.key).isNone)).map (fun f => f.key) := by
  induction l with
  | nil => intro es fs; simp [create_zip_go]
  | cons f rest ih =>
    intro es fs
    rw [create_zip_go]
    cases hf : fetch f.key with
    | none => rw [ih]; simp [List.filter_cons, hf]
    | some c => rw [ih]; simp [List.filter_cons, hf]

/-- The delete loop issues calls up to and including the first failing
key, and completes iff every delete succeeds. -/
theorem delete_original_files_eq (d : String → Bool) (fs : List S3Obj) :
    delete_original_files d fs
      = ((fs.map (fun f => f.key)).takeWhile d
          ++ ((fs.map (fun f => f.key)).dropWhile d).take 1,
         fs.all (fun f => d f.key)) := by
  induction fs with
  | nil => simp [delete_original_files]
  | cons f rest ih =>
    rw [delete_original_files]
    by_cases hd : d f.key
    · simp [hd, ih, List.takeWhile_cons, List.dropWhile_cons]
    · simp [hd, List.takeWhile_cons, List.dropWhile_cons]

end lambda_function

namespace s3_compression

/-- The source keys of the written entries are exactly the fetchable
candidates, in order (dedup only rewrites names). -/
theorem create_zip_go_sourceKeys_s3 (fetch : String → Option (List Nat))
    (l : List S3Obj) : ∀ (es : List ZipEntry) (fs : List String),
    ((create_zip_go fetch l es fs).entries).map (fun e => e.sourceKey)
      = es.map (fun e => e.sourceKey)
        ++ (l.filter (fun f => (fetch f.key).isSome)).map (fun f => f.key) := by
  induction l with
  | nil => intro es fs; simp [create_zip_go]
  | cons f rest ih =>
    intro es fs
    rw [create_zip_go]
    cases hf : fetch f.key with
    | none => rw [ih]; simp [List.filter_cons, hf]
    | some c => rw [ih]; simp [List.filter_cons, hf]

/-- Companion of `lambda_function.delete_original_files_eq` for the CLI
variant (the two loops are textually identical in the source). -/
theorem delete_original_files_eq_s3 (d : String → Bool) (fs : List S3Obj) :
    delete_original_files d fs
      = ((fs.map (fun f => f.key)).takeWhile d
          ++ ((fs.map (fun f => f.key)).dropWhile d).take 1,
         fs.all (fun f => d f.key)) := by
  induction fs with
  | nil => simp [delete_original_files]
  | cons f rest ih =>
    rw [delete_original_files]
    by_cases hd : d f.key
    · simp [hd, ih, List.takeWhile_cons, List.dropWhile_cons]
    · simp [hd, List.takeWhile_cons, List.dropWhile_cons]

end s3_compression

/-- Two strings with the same character data are equal; specialised to
emptiness of `String.mk`. -/
theorem stringMk_eq_empty {l : List Char} (h : String.mk l = "") : l = [] :=
  congrArg String.data h

/-- A non-empty key not ending in the path separator has a non-empty
basename. -/
theorem basenameOf_ne_empty {k : String} (hk : k ≠ "")
    (hd : is_directory k = false) : basenameOf k ≠ "" := by
  obtain ⟨l⟩ := k
  have h1 : l ≠ [] := by
    intro h; exact hk (by rw [h])
  have h2 : l.reverse ≠ [] := by simpa using h1
  rw [basenameOf]
  cases hr : l.reverse with
  | nil => exact absurd hr h2
  | cons c t =>
    have hc : ¬(c = '/') := by
      rw [is_directory, strEndsWith] at hd
      rw [show ("/" : String).toList.reverse = ['/'] from rfl] at hd
      rw [show (String.mk l).toList.reverse = l.reverse from rfl, hr] at hd
      simp [List.isPrefixOf] at hd
      exact fun h => hd h.symm
    rw [show (String.mk l).toList = l from rfl, hr]
    intro heq
    have h3 := stringMk_eq_empty heq
    rw [List.takeWhile_cons] at h3
    simp [hc] at h3

/-- Splitting off the extension preserves total length. -/
theorem splitext_length (s : String) :
    (splitext s).1.length + (splitext s).2.length = s.length := by
  cases h : splitextIdx s.toList with
  | none =>
    simp only [splitext, h]
    rfl
  | some j =>
    simp only [splitext, h]
    show (s.toList.take j).length + (s.toList.drop j).length = s.length
    rw [← List.length_append, List.take_append_drop]
    rfl

/-! ### Claim theorems -/

/-- C1: `lambda_handler` with `DELETE_ORIGINAL` enabled invokes delete on
every selected candidate (`files_to_compress`), including the key whose
fetch failed during archive building: here `b/f2.txt` is not among the
archived source keys, yet it receives a delete call. This contradicts the
spec's central invariant that only successfully archived keys are deleted. -/
theorem delete_includes_failed_fetch_key :
    lambda_function.lambda_handler
        [⟨"a/f1.txt", 100, 10, "e1"⟩, ⟨"b/f2.txt", 50, 20, "e2"⟩]
        (fun k => if k = "a/f1.txt" then some [7] else none)
        true (fun _ => true) (fun _ => 0) 1000 1000 true
      = lambda_function.LambdaOutcome.completed ["a/f1.txt", "b/f2.txt"] 2 150 0
          (lambda_function.compression_ratio 150 0)
    ∧ ((lambda_function.create_zip_archive
          (fun k => if k = "a/f1.txt" then some [7] else none)
          (lambda_function.get_files_to_compress
            [⟨"a/f1.txt", 100, 10, "e1"⟩, ⟨"b/f2.txt", 50, 20, "e2"⟩] 1000 1000)).entries).map
        (fun e => e.sourceKey) = ["a/f1.txt"]
    ∧ "b/f2.txt" ∈ ["a/f1.txt", "b/f2.txt"]
    ∧ "b/f2.txt" ∉ ["a/f1.txt"] :=
  ⟨rfl, by decide, by decide, by decide⟩

/-- C2: when the upload of the archive fails, `lambda_handler` takes the
status-500 path and issues no delete call, for every configuration. -/
theorem upload_failure_blocks_delete (listing : List S3Obj)
    (fetch : String → Option (List Nat)) (deleteOk : String → Bool)
    (zipSize : List ZipEntry → Nat) (cutoff N : Nat) (delete_original : Bool)
    (h : lambda_function.get_files_to_compress listing cutoff N ≠ []) :
    lambda_function.lambda_handler listing fetch false deleteOk zipSize cutoff N
        delete_original = lambda_function.LambdaOutcome.failed [] := by
  rw [lambda_function.lambda_handler]
  have hf : (lambda_function.get_files_to_compress listing cutoff N).isEmpty = false := by
    simpa [List.isEmpty_iff] using h
  simp only [hf, Bool.false_eq_true, if_false, if_pos]

/-- Witness for C2 at a concrete run. -/
theorem upload_failure_blocks_delete_witness :
    lambda_function.get_files_to_compress [⟨"a.txt", 1, 10, "e"⟩] 100 1000 ≠ []
    ∧ lambda_function.lambda_handler [⟨"a.txt", 1, 10, "e"⟩] (fun _ => some [])
        false (fun _ => true) (fun _ => 0) 100 1000 true
      = lambda_function.LambdaOutcome.failed [] :=
  ⟨by decide,
   upload_failure_blocks_delete [⟨"a.txt", 1, 10, "e"⟩] (fun _ => some [])
     (fun _ => true) (fun _ => 0) 100 1000 true (by decide)⟩

/-- C3 counterexample: with two eligible objects and maximum 1, the scanner
returns the FIRST eligible object in listing order (`a.txt`), not the
oldest one (`b.txt`, which is older and eligible but not selected). -/
theorem scanner_not_oldest_counterexample :
    lambda_function.get_files_to_compress
        [⟨"a.txt", 1, 10, "e"⟩, ⟨"b.txt", 1, 5, "e"⟩] 100 1
      = [⟨"a.txt", 1, 10, "e"⟩]
    ∧ skipsObj 100 ⟨"b.txt", 1, 5, "e"⟩ = false
    ∧ (5 : Nat) < 10
    ∧ (⟨"b.txt", 1, 5, "e"⟩ : S3Obj) ∉ lambda_function.get_files_to_compress
        [⟨"a.txt", 1, 10, "e"⟩, ⟨"b.txt", 1, 5, "e"⟩] 100 1 := by decide

/-- C3 amended: with more than `N` eligible objects the scanner selects
exactly `N`, namely the first `N` eligible objects in listing order,
sorted ascending by `lastModified` (not the `N` oldest overall). -/
theorem scanner_takes_first_eligible (listing : List S3Obj) (cutoff N : Nat)
    (h : N < (listing.filter (fun o => !skipsObj cutoff o)).length) :
    (lambda_function.get_files_to_compress listing cutoff N).length = N
    ∧ lambda_function.get_files_to_compress listing cutoff N
        = List.insertionSort lmLE
            ((listing.filter (fun o => !skipsObj cutoff o)).take N) := by
  refine ⟨?_, lambda_function.get_files_to_compress_eq listing cutoff N⟩
  rw [lambda_function.get_files_to_compress_eq, List.length_insertionSort,
    List.length_take]
  exact Nat.min_eq_left (Nat.le_of_lt h)

/-- Witness for C3's amended theorem at a concrete listing. -/
theorem scanner_takes_first_eligible_witness :
    1 < (([⟨"a.txt", 1, 10, "e"⟩, ⟨"b.txt", 1, 5, "e"⟩] : List S3Obj).filter
          (fun o => !skipsObj 100 o)).length
    ∧ (lambda_function.get_files_to_compress
          [⟨"a.txt", 1, 10, "e"⟩, ⟨"b.txt", 1, 5, "e"⟩] 100 1).length = 1
    ∧ lambda_function.get_files_to_compress
          [⟨"a.txt", 1, 10, "e"⟩, ⟨"b.txt", 1, 5, "e"⟩] 100 1
        = List.insertionSort lmLE
            ((([⟨"a.txt", 1, 10, "e"⟩, ⟨"b.txt", 1, 5, "e"⟩] : List S3Obj).filter
                (fun o => !skipsObj 100 o)).take 1) :=
  ⟨by decide,
   (scanner_takes_first_eligible
      [⟨"a.txt", 1, 10, "e"⟩, ⟨"b.txt", 1, 5, "e"⟩] 100 1 (by decide)).1,
   (scanner_takes_first_eligible
      [⟨"a.txt", 1, 10, "e"⟩, ⟨"b.txt", 1, 5, "e"⟩] 100 1 (by decide)).2⟩

/-- C4 counterexample: `lambda_function.create_zip_archive` applies no
disambiguation at all — two candidates whose keys share the final path
segment `report.csv` produce two entries with the SAME name. -/
theorem duplicate_entry_names_counterexample :
    ((lambda_function.create_zip_archive (fun _ => some [])
        [⟨"a/report.csv", 1, 1, "e"⟩, ⟨"b/report.csv", 1, 2, "e"⟩]).entries).map
      (fun e => e.name) = ["report.csv", "report.csv"]
    ∧ basenameOf "a/report.csv" = basenameOf "b/report.csv" := by decide

/-- C4 amended: in `s3_compression.create_zip_archive`, when two fetched
candidates share the same non-empty basename, the second is renamed to
`{stem}_{successful_files}{ext}` (here `_1`), which differs from the base
name; the rename is a pure function of the input order. (The rename is
not re-checked against the entry set, so with three or more candidates a
crafted basename such as `x_2.txt` can still collide; and the lambda
variant applies no disambiguation at all — see the counterexample.) -/
theorem s3_dedup_renames_second_collision (k1 k2 et1 et2 : String)
    (sz1 sz2 lm1 lm2 : Nat) (c1 c2 : List Nat)
    (fetch : String → Option (List Nat))
    (hb : basenameOf k1 ≠ "") (he : basenameOf k2 = basenameOf k1)
    (h1 : fetch k1 = some c1) (h2 : fetch k2 = some c2) :
    ((s3_compression.create_zip_archive fetch
        [⟨k1, sz1, lm1, et1⟩, ⟨k2, sz2, lm2, et2⟩]).entries).map (fun e => e.name)
      = [basenameOf k1,
         (splitext (basenameOf k1)).1 ++ "_" ++ toString 1
           ++ (splitext (basenameOf k1)).2]
    ∧ (splitext (basenameOf k1)).1 ++ "_" ++ toString 1
        ++ (splitext (basenameOf k1)).2 ≠ basenameOf k1 := by
  have hb2 : basenameOf k2 ≠ "" := by rw [he]; exact hb
  constructor
  · rw [s3_compression.create_zip_archive]
    rw [s3_compression.create_zip_go]
    simp only [h1]
    rw [s3_compression.create_zip_go]
    simp only [h2]
    rw [s3_compression.create_zip_go]
    simp only [zipBaseName, if_neg hb, if_neg hb2, he]
    simp
  · intro heq
    have hlen := congrArg String.length heq
    have hse := splitext_length (basenameOf k1)
    rw [String.length_append, String.length_append, String.length_append] at hlen
    have h5 : ("_" : String).length = 1 := rfl
    have h6 : (toString (1 : Nat)).length = 1 := rfl
    omega

/-- Witness for C4's amended theorem: the spec's own scenario, two
`report.csv` keys under different prefixes. -/
theorem s3_dedup_renames_second_collision_witness :
    basenameOf "a/report.csv" ≠ ""
    ∧ basenameOf "b/report.csv" = basenameOf "a/report.csv"
    ∧ ((s3_compression.create_zip_archive (fun _ => some [])
          [⟨"a/report.csv", 1, 1, "e"⟩, ⟨"b/report.csv", 2, 2, "f"⟩]).entries).map
        (fun e => e.name)
      = [basenameOf "a/report.csv",
         (splitext (basenameOf "a/report.csv")).1 ++ "_" ++ toString 1
           ++ (splitext (basenameOf "a/report.csv")).2]
    ∧ (splitext (basenameOf "a/report.csv")).1 ++ "_" ++ toString 1
        ++ (splitext (basenameOf "a/report.csv")).2 ≠ basenameOf "a/report.csv" :=
  ⟨by decide, by decide,
   (s3_dedup_renames_second_collision "a/report.csv" "b/report.csv" "e" "f"
      1 2 1 2 [] [] (fun _ => some []) (by decide) (by decide) rfl rfl).1,
   (s3_dedup_renames_second_collision "a/report.csv" "b/report.csv" "e" "f"
      1 2 1 2 [] [] (fun _ => some []) (by decide) (by decide) rfl rfl).2⟩

/-- C5 counterexample: with candidate sizes 100 and 50 and the second
fetch failing, the success body reports `original_size = 150` — the sum
over ALL selected candidates — while the sum over the successfully
archived entries alone is 100. -/
theorem stats_include_failed_fetch_counterexample :
    lambda_function.lambda_handler
        [⟨"a/f1.txt", 100, 10, "e1"⟩, ⟨"b/f2.txt", 50, 20, "e2"⟩]
        (fun k => if k = "a/f1.txt" then some [7] else none)
        true (fun _ => true) (fun _ => 0) 1000 1000 false
      = lambda_function.LambdaOutcome.completed [] 2 150 0
          (lambda_function.compression_ratio 150 0)
    ∧ ((([⟨"a/f1.txt", 100, 10, "e1"⟩, ⟨"b/f2.txt", 50, 20, "e2"⟩] : List S3Obj).filter
          (fun f => ((fun k => if k = "a/f1.txt" then some ([7] : List Nat) else none)
              f.key).isSome)).map (fun f => f.size)).sum = 100
    ∧ (150 : Nat) ≠ 100
    ∧ lambda_function.compression_ratio 150 0 = 100 :=
  ⟨rfl, by decide, by decide, by norm_num [lambda_function.compression_ratio]⟩

/-- C5 amended: at successful completion the reported `original_size` is
the byte sum over ALL selected candidates (failed fetches included, and
independent of the `fetch` oracle), and the compression ratio is the
percentage `(1 - compressed/original) * 100` when the original sum is
positive, `0` when it is `0` — never a division error. -/
theorem reported_stats_formula (listing : List S3Obj)
    (fetch : String → Option (List Nat)) (deleteOk : String → Bool)
    (zipSize : List ZipEntry → Nat) (cutoff N : Nat)
    (h : lambda_function.get_files_to_compress listing cutoff N ≠ []) :
    lambda_function.lambda_handler listing fetch true deleteOk zipSize cutoff N false
      = lambda_function.LambdaOutcome.completed []
          (lambda_function.get_files_to_compress listing cutoff N).length
          (lambda_function.original_size
            (lambda_function.get_files_to_compress listing cutoff N))
          (zipSize (lambda_function.create_zip_archive fetch
            (lambda_function.get_files_to_compress listing cutoff N)).entries)
          (lambda_function.compression_ratio
            (lambda_function.original_size
              (lambda_function.get_files_to_compress listing cutoff N))
            (zipSize (lambda_function.create_zip_archive fetch
              (lambda_function.get_files_to_compress listing cutoff N)).entries))
    ∧ lambda_function.original_size
          (lambda_function.get_files_to_compress listing cutoff N)
        = (((lambda_function.get_files_to_compress listing cutoff N)).map
            (fun f => f.size)).sum
    ∧ (∀ z : Nat, lambda_function.compression_ratio 0 z = 0)
    ∧ (∀ o z : Nat, 0 < o →
        lambda_function.compression_ratio o z = (1 - (z : ℚ) / (o : ℚ)) * 100) := by
  refine ⟨?_, rfl, ?_, ?_⟩
  · rw [lambda_function.lambda_handler]
    have hf : (lambda_function.get_files_to_compress listing cutoff N).isEmpty
        = false := by
      simpa [List.isEmpty_iff] using h
    simp [hf]
  · intro z
    simp [lambda_function.compression_ratio]
  · intro o z ho
    simp [lambda_function.compression_ratio, ho]

/-- Witness for C5's amended theorem at a concrete run (all fetches
failing, so the candidate list and the archived set visibly differ). -/
theorem reported_stats_formula_witness :
    lambda_function.get_files_to_compress [⟨"a.txt", 5, 10, "e"⟩] 100 7 ≠ []
    ∧ lambda_function.lambda_handler [⟨"a.txt", 5, 10, "e"⟩] (fun _ => none)
        true (fun _ => true) (fun _ => 22) 100 7 false
      = lambda_function.LambdaOutcome.completed []
          (lambda_function.get_files_to_compress [⟨"a.txt", 5, 10, "e"⟩] 100 7).length
          (lambda_function.original_size
            (lambda_function.get_files_to_compress [⟨"a.txt", 5, 10, "e"⟩] 100 7))
          ((fun _ => 22) (lambda_function.create_zip_archive (fun _ => none)
            (lambda_function.get_files_to_compress [⟨"a.txt", 5, 10, "e"⟩] 100 7)).entries)
          (lambda_function.compression_ratio
            (lambda_function.original_size
              (lambda_function.get_files_to_compress [⟨"a.txt", 5, 10, "e"⟩] 100 7))
            ((fun _ => 22) (lambda_function.create_zip_archive (fun _ => none)
              (lambda_function.get_files_to_compress
                [⟨"a.txt", 5, 10, "e"⟩] 100 7)).entries)) :=
  ⟨by decide,
   (reported_stats_formula [⟨"a.txt", 5, 10, "e"⟩] (fun _ => none) (fun _ => true)
      (fun _ => 22) 100 7 (by decide)).1⟩

/-- C6: every candidate the scanner returns is strictly older than the
cutoff (exact equality excluded), has non-zero size, is not a directory
marker, and is not a `.zip` key. -/
theorem scanner_never_selects_excluded (listing : List S3Obj) (cutoff N : Nat)
    (f : S3Obj) (h : f ∈ lambda_function.get_files_to_compress listing cutoff N) :
    f.lastModified < cutoff ∧ f.size ≠ 0 ∧ is_directory f.key = false
    ∧ is_zip_file f.key = false := by
  have h2 := (lambda_function.mem_get_files_to_compress h).2
  rw [skipsObj] at h2
  simp only [Bool.or_eq_false_iff] at h2
  obtain ⟨⟨⟨ha, hz⟩, hd⟩, hs⟩ := h2
  refine ⟨Nat.lt_of_not_le (of_decide_eq_false ha), by simpa using hs, hd, hz⟩

/-- Witness for C6 at a concrete listing. -/
theorem scanner_never_selects_excluded_witness :
    (⟨"a.txt", 1, 10, "e"⟩ : S3Obj) ∈ lambda_function.get_files_to_compress
        [⟨"a.txt", 1, 10, "e"⟩] 100 5
    ∧ (10 : Nat) < 100 ∧ (1 : Nat) ≠ 0 ∧ is_directory "a.txt" = false
    ∧ is_zip_file "a.txt" = false :=
  ⟨by decide,
   scanner_never_selects_excluded [⟨"a.txt", 1, 10, "e"⟩] 100 5
     ⟨"a.txt", 1, 10, "e"⟩ (by decide)⟩

/-- C7: the scanner's output is sorted ascending by `lastModified`; ties
keep their original listing order (the elements carrying any fixed
timestamp appear exactly in accumulation order, which is listing order);
and the archive writes its entries in exactly this candidate order. -/
theorem scanner_sorted_stable_archive_order (listing : List S3Obj)
    (cutoff N : Nat) (fetch : String → Option (List Nat)) :
    List.Sorted lmLE (lambda_function.get_files_to_compress listing cutoff N)
    ∧ (∀ t : Nat,
        (lambda_function.get_files_to_compress listing cutoff N).filter
            (fun o => o.lastModified == t)
          = ((listing.filter (fun o => !skipsObj cutoff o)).take N).filter
              (fun o => o.lastModified == t))
    ∧ ((lambda_function.create_zip_archive fetch
          (lambda_function.get_files_to_compress listing cutoff N)).entries).map
        (fun e => e.sourceKey)
      = ((lambda_function.get_files_to_compress listing cutoff N).filter
          (fun f => (fetch f.key).isSome)).map (fun f => f.key) := by
  refine ⟨?_, ?_, ?_⟩
  · rw [lambda_function.get_files_to_compress]
    exact List.sorted_insertionSort lmLE _
  · intro t
    rw [lambda_function.get_files_to_compress_eq, filter_insertionSort]
  · rw [lambda_function.create_zip_archive,
      lambda_function.create_zip_go_sourceKeys]
    simp

/-- C8: the archive builder is fault-isolating per entry — the failed log
is exactly the unfetchable candidates, the written entries are exactly
the fetchable ones (both in both source files), and per-entry fetch
failures never drive `lambda_handler` into the failed state. -/
theorem builder_fault_isolation (fetch : String → Option (List Nat))
    (files listing : List S3Obj) (zipSize : List ZipEntry → Nat)
    (cutoff N : Nat) (delete_original : Bool) :
    (lambda_function.create_zip_archive fetch files).failed
        = (files.filter (fun f => (fetch f.key).isNone)).map (fun f => f.key)
    ∧ ((lambda_function.create_zip_archive fetch files).entries).map
        (fun e => e.sourceKey)
        = (files.filter (fun f => (fetch f.key).isSome)).map (fun f => f.key)
    ∧ ((s3_compression.create_zip_archive fetch files).entries).map
        (fun e => e.sourceKey)
        = (files.filter (fun f => (fetch f.key).isSome)).map (fun f => f.key)
    ∧ ∀ calls : List String,
        lambda_function.lambda_handler listing fetch true (fun _ => true) zipSize
            cutoff N delete_original ≠ lambda_function.LambdaOutcome.failed calls := by
  refine ⟨?_, ?_, ?_, ?_⟩
  · rw [lambda_function.create_zip_archive, lambda_function.create_zip_go_failed]
    simp
  · rw [lambda_function.create_zip_archive,
      lambda_function.create_zip_go_sourceKeys]
    simp
  · rw [s3_compression.create_zip_archive,
      s3_compression.create_zip_go_sourceKeys_s3]
    simp
  · intro calls
    rw [lambda_function.lambda_handler]
    by_cases hf : (lambda_function.get_files_to_compress listing cutoff N).isEmpty
      = true
    · rw [if_pos hf]
      simp
    · rw [if_neg hf]
      rw [if_neg (by simp)]
      cases delete_original with
      | false => simp
      | true =>
        rw [if_pos rfl, lambda_function.delete_original_files_eq]
        simp

/-- C9 counterexample: with two candidates and the first delete failing,
`lambda_handler` raises out of the delete loop — the second key never
receives a delete call — and the run ends on the status-500 path,
contradicting "isolated, does not abort, remaining keys still deleted". -/
theorem delete_failure_aborts_counterexample :
    lambda_function.lambda_handler
        [⟨"a/f1.txt", 100, 10, "e1"⟩, ⟨"b/f2.txt", 50, 20, "e2"⟩]
        (fun _ => some [7]) true (fun k => !(k == "a/f1.txt"))
        (fun _ => 0) 1000 1000 true
      = lambda_function.LambdaOutcome.failed ["a/f1.txt"]
    ∧ "b/f2.txt" ∉ ["a/f1.txt"] := by decide

/-- C9 amended: in both source files a per-key delete failure aborts the
delete phase — delete calls are issued for the keys up to and including
the first failing one, the keys after it receive none, the loop
completes only when every delete succeeds, and the raised error drives
`lambda_handler` into the failed (status-500) state. -/
theorem delete_phase_stops_at_first_failure (d : String → Bool)
    (fs : List S3Obj) :
    lambda_function.delete_original_files d fs
        = ((fs.map (fun f => f.key)).takeWhile d
            ++ ((fs.map (fun f => f.key)).dropWhile d).take 1,
           fs.all (fun f => d f.key))
    ∧ s3_compression.delete_original_files d fs
        = ((fs.map (fun f => f.key)).takeWhile d
            ++ ((fs.map (fun f => f.key)).dropWhile d).take 1,
           fs.all (fun f => d f.key))
    ∧ (∀ (listing : List S3Obj) (fetch : String → Option (List Nat))
          (zipSize : List ZipEntry → Nat) (cutoff N : Nat),
        lambda_function.get_files_to_compress listing cutoff N ≠ [] →
        (lambda_function.get_files_to_compress listing cutoff N).all
            (fun f => d f.key) = false →
        lambda_function.lambda_handler listing fetch true d zipSize cutoff N true
          = lambda_function.LambdaOutcome.failed
              ((lambda_function.delete_original_files d
                (lambda_function.get_files_to_compress listing cutoff N)).1)) := by
  refine ⟨lambda_function.delete_original_files_eq d fs,
    s3_compression.delete_original_files_eq_s3 d fs, ?_⟩
  intro listing fetch zipSize cutoff N h hall
  rw [lambda_function.lambda_handler]
  have hf : (lambda_function.get_files_to_compress listing cutoff N).isEmpty
      = false := by
    simpa [List.isEmpty_iff] using h
  simp only [hf, Bool.false_eq_true, if_false, if_pos]
  rw [if_pos (show (lambda_function.delete_original_files d
      (lambda_function.get_files_to_compress listing cutoff N)).2 = false by
    rw [lambda_function.delete_original_files_eq]; exact hall)]
  simp

/-- Witness for C9's amended theorem at a concrete run. -/
theorem delete_phase_stops_at_first_failure_witness :
    lambda_function.get_files_to_compress
        [⟨"a/f1.txt", 100, 10, "e1"⟩, ⟨"b/f2.txt", 50, 20, "e2"⟩] 1000 1000 ≠ []
    ∧ (lambda_function.get_files_to_compress
        [⟨"a/f1.txt", 100, 10, "e1"⟩, ⟨"b/f2.txt", 50, 20, "e2"⟩] 1000 1000).all
        (fun f => (fun k => !(k == "a/f1.txt")) f.key) = false
    ∧ lambda_function.lambda_handler
        [⟨"a/f1.txt", 100, 10, "e1"⟩, ⟨"b/f2.txt", 50, 20, "e2"⟩]
        (fun _ => some [7]) true (fun k => !(k == "a/f1.txt"))
        (fun _ => 0) 1000 1000 true
      = lambda_function.LambdaOutcome.failed
          ((lambda_function.delete_original_files (fun k => !(k == "a/f1.txt"))
            (lambda_function.get_files_to_compress
              [⟨"a/f1.txt", 100, 10, "e1"⟩, ⟨"b/f2.txt", 50, 20, "e2"⟩]
              1000 1000)).1) :=
  ⟨by decide, by decide,
   (delete_phase_stops_at_first_failure (fun k => !(k == "a/f1.txt"))
      []).2.2 [⟨"a/f1.txt", 100, 10, "e1"⟩, ⟨"b/f2.txt", 50, 20, "e2"⟩]
     (fun _ => some [7]) (fun _ => 0) 1000 1000 (by decide) (by decide)⟩

/-- C10: every candidate the scanner returns (over listings whose keys
are non-empty, as S3 keys are) has a non-empty basename, so the fallback
branch rewriting the whole key is unreachable and the entry base name is
exactly the key's final path segment. -/
theorem basename_fallback_unreachable (listing : List S3Obj) (cutoff N : Nat)
    (f : S3Obj) (hkeys : ∀ o ∈ listing, o.key ≠ "")
    (hf : f ∈ lambda_function.get_files_to_compress listing cutoff N) :
    basenameOf f.key ≠ "" ∧ zipBaseName f.key = basenameOf f.key := by
  obtain ⟨hmem, hskip⟩ := lambda_function.mem_get_files_to_compress hf
  have hk : f.key ≠ "" := hkeys f hmem
  have hdir : is_directory f.key = false := by
    rw [skipsObj] at hskip
    simp only [Bool.or_eq_false_iff] at hskip
    exact hskip.1.2
  have hb := basenameOf_ne_empty hk hdir
  exact ⟨hb, by rw [zipBaseName]; simp [hb]⟩

/-- Witness for C10 at a concrete listing. -/
theorem basename_fallback_unreachable_witness :
    (∀ o ∈ ([⟨"dir/a.txt", 1, 10, "e"⟩] : List S3Obj), o.key ≠ "")
    ∧ (⟨"dir/a.txt", 1, 10, "e"⟩ : S3Obj) ∈ lambda_function.get_files_to_compress
        [⟨"dir/a.txt", 1, 10, "e"⟩] 100 5
    ∧ basenameOf "dir/a.txt" ≠ ""
    ∧ zipBaseName "dir/a.txt" = basenameOf "dir/a.txt" :=
  ⟨by decide, by decide,
   basename_fallback_unreachable [⟨"dir/a.txt", 1, 10, "e"⟩] 100 5
     ⟨"dir/a.txt", 1, 10, "e"⟩ (by decide) (by decide)⟩
